import Mathlib

/-!
# playongo: scan-and-index pipeline and catalog queries

A shallow embedding of `main.go`.  The songs table is a list of rows in
insertion order, the directory walk is the list of entries that
`filepath.Walk` hands to `MusicWalk`, and a run of the program either returns
or ends the process (`log.Fatal`, a panic).  Store-level failures of the
database handle are not modelled: every statement on `db` succeeds unless the
driver rejects its arguments.
-/

namespace Playongo

/-! ## Library functions used by `main.go` -/

/-- Budgeted left-to-right replacement of a non-empty `old` (the loop of Go's
`strings.Replace`): `skip` counts the bytes of a matched `old` still to drop. -/
def replaceLoop (old new : List Char) : Nat → Nat → List Char → List Char
  | _, _, [] => []
  | n, skip + 1, _ :: rest => replaceLoop old new n skip rest
  | 0, 0, c :: rest => c :: rest
  | n + 1, 0, c :: rest =>
    if old.isPrefixOf (c :: rest) then new ++ replaceLoop old new n (old.length - 1) rest
    else c :: replaceLoop old new (n + 1) 0 rest

/-- Go's `strings.Replace` with an empty `old`: `new` goes in front of the
string and after each character, up to `n` times. -/
def replaceEmpty (new : List Char) : Nat → List Char → List Char
  | 0, s => s
  | _ + 1, [] => new
  | n + 1, c :: rest => new ++ c :: replaceEmpty new n rest

/-- Go's `strings.Replace(s, old, new, n)`; a negative `n` lifts the limit. -/
def stringsReplace (s old new : String) (n : Int) : String :=
  if old = new ∨ n = 0 then s
  else
    let budget := if n < 0 then s.data.length + 1 else n.toNat
    if old.data = [] then String.mk (replaceEmpty new.data budget s.data)
    else String.mk (replaceLoop old.data new.data budget 0 s.data)

/-- The elements of a path between its separators. -/
def splitSlash : List Char → List (List Char)
  | [] => [[]]
  | c :: cs =>
    match splitSlash cs with
    | [] => [[]]
    | x :: xs => if c = '/' then [] :: x :: xs else (c :: x) :: xs

/-- The element loop of Go's `filepath.Clean`: `out` holds the elements
written so far and `dotdot` how many of them a `..` may not remove. -/
def cleanElems (rooted : Bool) : List (List Char) → List (List Char) → Nat → List (List Char)
  | [], out, _ => out
  | e :: es, out, dotdot =>
    if e = [] ∨ e = ['.'] then cleanElems rooted es out dotdot
    else if e = ['.', '.'] then
      if out.length > dotdot then cleanElems rooted es out.dropLast dotdot
      else if rooted then cleanElems rooted es out dotdot
      else cleanElems rooted es (out ++ [e]) (out.length + 1)
    else cleanElems rooted es (out ++ [e]) dotdot

/-- Go's `filepath.Clean` on a slash-separated path. -/
def filepathClean (path : String) : String :=
  if path.data = [] then "."
  else
    let rooted := path.data.head? = some '/'
    let out := cleanElems rooted (splitSlash path.data) [] 0
    let body := List.intercalate ['/'] out
    if rooted then String.mk ('/' :: body)
    else if out = [] then "."
    else String.mk body

/-- Go's `filepath.Join` of two elements, which is how `filepath.Walk` names
the entries below its root. -/
def filepathJoin (dir name : String) : String :=
  if dir ≠ "" then filepathClean (String.mk (dir.data ++ '/' :: name.data))
  else if name ≠ "" then filepathClean name
  else ""

/-! ### `crypto/md5` and `encoding/hex` -/

def md5Shifts : List Nat :=
  [7, 12, 17, 22, 7, 12, 17, 22, 7, 12, 17, 22, 7, 12, 17, 22,
   5, 9, 14, 20, 5, 9, 14, 20, 5, 9, 14, 20, 5, 9, 14, 20,
   4, 11, 16, 23, 4, 11, 16, 23, 4, 11, 16, 23, 4, 11, 16, 23,
   6, 10, 15, 21, 6, 10, 15, 21, 6, 10, 15, 21, 6, 10, 15, 21]

def md5Table : List Nat :=
  [0xd76aa478, 0xe8c7b756, 0x242070db, 0xc1bdceee, 0xf57c0faf, 0x4787c62a, 0xa8304613, 0xfd469501,
   0x698098d8, 0x8b44f7af, 0xffff5bb1, 0x895cd7be, 0x6b901122, 0xfd987193, 0xa679438e, 0x49b40821,
   0xf61e2562, 0xc040b340, 0x265e5a51, 0xe9b6c7aa, 0xd62f105d, 0x02441453, 0xd8a1e681, 0xe7d3fbc8,
   0x21e1cde6, 0xc33707d6, 0xf4d50d87, 0x455a14ed, 0xa9e3e905, 0xfcefa3f8, 0x676f02d9, 0x8d2a4c8a,
   0xfffa3942, 0x8771f681, 0x6d9d6122, 0xfde5380c, 0xa4beea44, 0x4bdecfa9, 0xf6bb4b60, 0xbebfbc70,
   0x289b7ec6, 0xeaa127fa, 0xd4ef3085, 0x04881d05, 0xd9d4d039, 0xe6db99e5, 0x1fa27cf8, 0xc4ac5665,
   0xf4292244, 0x432aff97, 0xab9423a7, 0xfc93a039, 0x655b59c3, 0x8f0ccc92, 0xffeff47d, 0x85845dd1,
   0x6fa87e4f, 0xfe2ce6e0, 0xa3014314, 0x4e0811a1, 0xf7537e82, 0xbd3af235, 0x2ad7d2bb, 0xeb86d391]

/-- Size of a 32-bit word. -/
def word32 : Nat := 4294967296

def rotl32 (x c : Nat) : Nat := ((x <<< c) ||| (x >>> (32 - c))) % word32

def not32 (x : Nat) : Nat := (word32 - 1) - x % word32

/-- Little-endian 32-bit word of four bytes. -/
def leWord (bs : List Nat) : Nat :=
  bs.getD 0 0 + 256 * bs.getD 1 0 + 65536 * bs.getD 2 0 + 16777216 * bs.getD 3 0

/-- The `n` low bytes of `x`, least significant first. -/
def leBytes : Nat → Nat → List Nat
  | 0, _ => []
  | n + 1, x => x % 256 :: leBytes n (x / 256)

def blockWords : Nat → List Nat → List Nat
  | 0, _ => []
  | n + 1, bs => leWord (bs.take 4) :: blockWords n (bs.drop 4)

structure MD5State where
  a : Nat
  b : Nat
  c : Nat
  d : Nat
deriving DecidableEq, Repr

/-- One of the 64 operations of the MD5 compression function. -/
def md5Round (m : List Nat) (st : MD5State) (i : Nat) : MD5State :=
  let f :=
    if i < 16 then (st.b &&& st.c) ||| (not32 st.b &&& st.d)
    else if i < 32 then (st.d &&& st.b) ||| (not32 st.d &&& st.c)
    else if i < 48 then st.b ^^^ st.c ^^^ st.d
    else st.c ^^^ (st.b ||| not32 st.d)
  let g :=
    if i < 16 then i
    else if i < 32 then (5 * i + 1) % 16
    else if i < 48 then (3 * i + 5) % 16
    else (7 * i) % 16
  let sum := (f + st.a + md5Table.getD i 0 + m.getD g 0) % word32
  { a := st.d, d := st.c, c := st.b, b := (st.b + rotl32 sum (md5Shifts.getD i 0)) % word32 }

def md5Block (st : MD5State) (block : List Nat) : MD5State :=
  let m := blockWords 16 block
  let r := (List.range 64).foldl (md5Round m) st
  { a := (st.a + r.a) % word32, b := (st.b + r.b) % word32,
    c := (st.c + r.c) % word32, d := (st.d + r.d) % word32 }

def md5Pad (msg : List Nat) : List Nat :=
  msg ++ [128] ++ List.replicate ((119 - msg.length % 64) % 64) 0
    ++ leBytes 8 (8 * msg.length % 2 ^ 64)

def md5Blocks : Nat → MD5State → List Nat → MD5State
  | 0, st, _ => st
  | n + 1, st, bs => md5Blocks n (md5Block st (bs.take 64)) (bs.drop 64)

/-- The 16-byte MD5 digest of a byte sequence (`md5.New`, `io.Copy`, `h.Sum(nil)`). -/
def md5Sum (msg : List Nat) : List Nat :=
  let p := md5Pad msg
  let st := md5Blocks (p.length / 64) ⟨0x67452301, 0xefcdab89, 0x98badcfe, 0x10325476⟩ p
  leBytes 4 st.a ++ leBytes 4 st.b ++ leBytes 4 st.c ++ leBytes 4 st.d

def hexDigit (n : Nat) : Char := "0123456789abcdef".data.getD n '0'

/-- Go's `hex.EncodeToString`. -/
def hexEncodeToString (bs : List Nat) : String :=
  String.mk (bs.flatMap fun b => [hexDigit (b / 16), hexDigit (b % 16)])

/-! ## Data model -/

/-- The `Song` struct; `Format` and `FileType` are string types of the tag library. -/
structure Song where
  ID : String
  Name : String
  Artist : String
  Album : String
  Genre : String
  Year : Int
  Format : String
  FileType : String
  Path : String
deriving DecidableEq, Repr

/-- Go's zero value `Song{}`. -/
def Song.zero : Song := ⟨"", "", "", "", "", 0, "", "", ""⟩

/-- What the accessors of a non-nil `tag.Metadata` return. -/
structure Metadata where
  Title : String
  Artist : String
  Album : String
  Genre : String
  Year : Int
  Format : String
  FileType : String
deriving DecidableEq, Repr

/-- The rows of the `songs` table, oldest insertion first. -/
abbrev Catalog := List Song

/-- A file as `ReadFileMeta` observes it. -/
structure File where
  /-- `os.Open` returns an error (and a nil handle) -/
  openFails : Bool
  /-- the bytes of the file -/
  content : List Nat
  /-- what `tag.ReadFrom` returns on the open handle; `none` is nil metadata -/
  tagResult : Option Metadata
  /-- where `tag.ReadFrom` leaves the read position of the handle -/
  tagOffset : Nat
  /-- reading the rest of the handle in `io.Copy` returns an error -/
  readFails : Bool
deriving DecidableEq, Repr

/-- The `os.FileInfo` of a walked entry. -/
structure FileInfo where
  IsDir : Bool
deriving DecidableEq, Repr

/-- One call of the walk function by `filepath.Walk`. -/
structure WalkEntry where
  path : String
  /-- `none` is the nil `info` that `Walk` passes when `Lstat` failed -/
  info : Option FileInfo
  file : File
deriving DecidableEq, Repr

/-- How a run of the scan ends, with the table as it then stands. -/
inductive Run where
  /-- the function returned -/
  | done (db : Catalog)
  /-- the process ended in `log.Fatal` or a panic -/
  | exited (db : Catalog)
deriving DecidableEq, Repr

/-- The table a run leaves behind. -/
def Run.db : Run → Catalog
  | .done db => db
  | .exited db => db

/-- The global `static`. -/
def static : String := "/static/"

/-! ## Catalog store -/

deriving instance DecidableEq for Except

/-- `INSERT OR REPLACE INTO songs`: the row holding the same primary key `ID`
is deleted and the new row is inserted. -/
def addSong (song : Song) (db : Catalog) : Catalog :=
  db.filter (fun row => decide (row.ID ≠ song.ID)) ++ [song]

/-- An operand of a `WHERE` comparison: a `?` placeholder or a quoted literal. -/
inductive SqlOperand where
  | param (index : Nat)
  | text (literal : String)
deriving DecidableEq, Repr

/-- A `SELECT` of all nine columns `FROM songs`, with an optional
`where lhs=rhs`. -/
structure SqlSelect where
  whereEq : Option (SqlOperand × SqlOperand)
deriving DecidableEq, Repr

def SqlOperand.numInput : SqlOperand → Nat
  | .param _ => 1
  | .text _ => 0

/-- Number of `?` placeholders of the statement. -/
def SqlSelect.numInput (q : SqlSelect) : Nat :=
  match q.whereEq with
  | none => 0
  | some (l, r) => l.numInput + r.numInput

def SqlOperand.eval (args : List String) : SqlOperand → String
  | .param i => args.getD i ""
  | .text s => s

/-- The driver's `db.Query(query, args...)`: too few arguments are an error,
surplus arguments are left unbound, and the rows satisfying the `WHERE`
comparison are returned in table order. -/
def dbQuery (db : Catalog) (query : SqlSelect) (args : List String) : Except String (List Song) :=
  if args.length < query.numInput then .error "not enough args to execute query"
  else
    match query.whereEq with
    | none => .ok db
    | some (l, r) => .ok (db.filter fun _ => decide (l.eval args = r.eval args))

/-- The query function `getSongs`; an error is the panic of `checkErr`. -/
def getSongs (db : Catalog) (attr value : String) : Except String (List Song) :=
  let query : SqlSelect :=
    if attr = "any" then
      -- SELECT ... FROM songs
      { whereEq := none }
    else
      -- SELECT ... FROM songs where ?='?'
      { whereEq := some (.param 0, .text "?") }
  dbQuery db query [attr, value]

/-! ## Request handlers: the values written to the response, in order -/

def GetSongByID (db : Catalog) (id : String) : Except String (List Song) :=
  match getSongs db "id" id with
  | .error e => .error e
  | .ok songs => .ok (songs ++ [Song.zero])

def GetSongByAttribute (_db : Catalog) (_attr _value : String) : Except String (List Song) :=
  .ok [Song.zero]

def GetSongsEndpoint (db : Catalog) : Except String (List Song) :=
  getSongs db "any" "any"

/-! ## Scan pipeline -/

/-- The call `tag.ReadFrom(f)` in `ReadFileMeta`: nil metadata when the handle
is nil or the library finds no tags. -/
def tagReadFrom (file : File) : Option Metadata :=
  if file.openFails then none else file.tagResult

/-- The function `ReadFileMeta`: the hex MD5 of what `io.Copy` reads from the
handle after `tag.ReadFrom`, and the metadata; `none` is `log.Fatal`.  A nil
handle (failed open) makes `tag.ReadFrom` and `io.Copy` both return an error. -/
def ReadFileMeta (file : File) : Option (String × Option Metadata) :=
  let metadata := tagReadFrom file
  if file.openFails || file.readFails then none
  else some (hexEncodeToString (md5Sum (file.content.drop file.tagOffset)), metadata)

/-- The `relativePathNoSpaces` of `MusicWalk`. -/
def relativePathNoSpaces (musicDir path : String) : String :=
  let relativePath := filepathClean (stringsReplace path musicDir static 1)
  stringsReplace relativePath " " "%20" (-1)

/-- The walk function `MusicWalk`. -/
def MusicWalk (musicDir : String) (entry : WalkEntry) (db : Catalog) : Run :=
  match entry.info with
  | none => .exited db
  | some info =>
    if !info.IsDir then
      match ReadFileMeta entry.file with
      | none => .exited db
      | some (md5sum, some metadata) =>
        .done (addSong
          { ID := md5sum, Name := metadata.Title, Artist := metadata.Artist,
            Album := metadata.Album, Genre := metadata.Genre, Year := metadata.Year,
            Format := metadata.Format, FileType := metadata.FileType,
            Path := relativePathNoSpaces musicDir entry.path } db)
      | some (_, none) => .done db
    else .done db

/-- The function `ScanMedia`: `filepath.Walk` calls `MusicWalk` on each entry
of the tree in turn; `MusicWalk` always returns nil, so only the end of the
process stops the walk. -/
def ScanMedia (musicDir : String) : List WalkEntry → Catalog → Run
  | [], db => .done db
  | entry :: rest, db =>
    match MusicWalk musicDir entry db with
    | .done db1 => ScanMedia musicDir rest db1
    | .exited db1 => .exited db1

/-- The upserts a scan performs, in order, up to the entry that ends the
process; they depend on the tree only. -/
def scanUpserts (musicDir : String) : List WalkEntry → List Song
  | [] => []
  | entry :: rest =>
    match entry.info with
    | none => []
    | some info =>
      if !info.IsDir then
        match ReadFileMeta entry.file with
        | none => []
        | some (md5sum, some metadata) =>
          { ID := md5sum, Name := metadata.Title, Artist := metadata.Artist,
            Album := metadata.Album, Genre := metadata.Genre, Year := metadata.Year,
            Format := metadata.Format, FileType := metadata.FileType,
            Path := relativePathNoSpaces musicDir entry.path } :: scanUpserts musicDir rest
        | some (_, none) => scanUpserts musicDir rest
      else scanUpserts musicDir rest

/-- Whether a scan of the tree ends the process before the walk is over. -/
def scanExits : List WalkEntry → Bool
  | [] => false
  | entry :: rest =>
    match entry.info with
    | none => true
    | some info =>
      if !info.IsDir then
        match ReadFileMeta entry.file with
        | none => true
        | some _ => scanExits rest
      else scanExits rest

/-- A sequence of upserts applied to a table. -/
def upsertAll (songs : List Song) (db : Catalog) : Catalog :=
  songs.foldl (fun acc song => addSong song acc) db

/-- The space encoding in the words of the specification: each space is
written `%20` and every other character is kept. -/
def percentEncodeSpaces (s : String) : String :=
  String.mk (s.data.flatMap fun c => if c = ' ' then ['%', '2', '0'] else [c])

/-- The servable path in the words of the specification: the scan root in
front of `rest` is replaced by the static prefix, the result is cleaned, and
each space is written `%20`. -/
def servablePathSpec (rest : String) : String :=
  percentEncodeSpaces (filepathClean (String.mk (static.data ++ rest.data)))

/-! ## Sample values -/

def sampleMetadata : Metadata :=
  ⟨"One More Time", "Daft Punk", "Discovery", "House", 2001, "ID3v2.3", "MP3"⟩

/-- A readable three-byte file (`abc`) on which the tag reader finds
`sampleMetadata` and leaves the read position at `offset`. -/
def sampleFile (offset : Nat) : File :=
  ⟨false, [97, 98, 99], some sampleMetadata, offset, false⟩

def sampleSong (id path : String) : Song :=
  ⟨id, "One More Time", "Daft Punk", "Discovery", "House", 2001, "ID3v2.3", "MP3", path⟩

/-! ## Lemmas on the store -/

theorem upsertAll_cons (song : Song) (songs : List Song) (db : Catalog) :
    upsertAll (song :: songs) db = upsertAll songs (addSong song db) := rfl

/-- Normal form of a sequence of upserts: the old rows whose key is not
upserted, followed by what the sequence builds from the empty table. -/
theorem upsertAll_eq (songs : List Song) (db : Catalog) :
    upsertAll songs db
      = db.filter (fun row => decide (row.ID ∉ songs.map Song.ID)) ++ upsertAll songs [] := by
  induction songs generalizing db with
  | nil => simp [upsertAll]
  | cons song rest ih =>
    rw [upsertAll_cons, ih (addSong song db), upsertAll_cons, ih (addSong song [])]
    simp only [addSong, List.filter_append, List.filter_filter, List.filter_nil,
      List.nil_append, List.append_assoc, List.map_cons, List.mem_cons, not_or]
    congr 1
    apply List.filter_congr
    intro row _
    by_cases h1 : row.ID = song.ID <;> by_cases h2 : row.ID ∈ rest.map Song.ID <;> simp [h1, h2]

theorem mem_upsertAll (songs : List Song) (db : Catalog) (row : Song)
    (h : row ∈ upsertAll songs db) : row ∈ db ∨ row ∈ songs := by
  induction songs generalizing db with
  | nil => exact Or.inl h
  | cons song rest ih =>
    rw [upsertAll_cons] at h
    rcases ih _ h with h1 | h1
    · simp only [addSong, List.mem_append, List.mem_filter, List.mem_singleton] at h1
      rcases h1 with h2 | h2
      · exact Or.inl h2.1
      · exact Or.inr (h2 ▸ List.mem_cons_self _ _)
    · exact Or.inr (List.mem_cons_of_mem _ h1)

theorem upsertAll_idempotent (songs : List Song) (db : Catalog) :
    upsertAll songs (upsertAll songs db) = upsertAll songs db := by
  rw [upsertAll_eq songs (upsertAll songs db)]
  conv_rhs => rw [upsertAll_eq songs db]
  congr 1
  conv_lhs => rw [upsertAll_eq songs db]
  rw [List.filter_append, List.filter_filter]
  have h : (upsertAll songs []).filter (fun row => decide (row.ID ∉ songs.map Song.ID)) = [] := by
    rw [List.filter_eq_nil_iff]
    intro row hrow
    rcases mem_upsertAll songs [] row hrow with h1 | h1
    · simp at h1
    · simp only [decide_not, Bool.not_eq_true', decide_eq_false_iff_not, not_not]
      exact List.mem_map_of_mem _ h1
  rw [h, List.append_nil]
  apply List.filter_congr
  intro row _
  simp

/-- A scan is the sequence of its upserts, ended by a return or by the end of
the process. -/
theorem ScanMedia_eq (musicDir : String) (tree : List WalkEntry) (db : Catalog) :
    ScanMedia musicDir tree db
      = if scanExits tree then Run.exited (upsertAll (scanUpserts musicDir tree) db)
        else Run.done (upsertAll (scanUpserts musicDir tree) db) := by
  induction tree generalizing db with
  | nil => simp [ScanMedia, scanExits, scanUpserts, upsertAll]
  | cons entry rest ih =>
    unfold ScanMedia MusicWalk scanExits scanUpserts
    cases hinfo : entry.info with
    | none => simp [upsertAll]
    | some info =>
      cases hdir : info.IsDir with
      | true => simpa [hdir] using ih db
      | false =>
        cases hread : ReadFileMeta entry.file with
        | none => simp [hdir, upsertAll]
        | some r =>
          obtain ⟨md5sum, metadata⟩ := r
          cases metadata with
          | none => simpa [hdir] using ih db
          | some m => simpa [hdir, upsertAll_cons] using ih _

theorem ScanMedia_db (musicDir : String) (tree : List WalkEntry) (db : Catalog) :
    (ScanMedia musicDir tree db).db = upsertAll (scanUpserts musicDir tree) db := by
  rw [ScanMedia_eq]
  split <;> rfl

theorem ScanMedia_append (musicDir : String) (before rest : List WalkEntry) (db db1 : Catalog)
    (h : ScanMedia musicDir before db = Run.done db1) :
    ScanMedia musicDir (before ++ rest) db = ScanMedia musicDir rest db1 := by
  induction before generalizing db with
  | nil =>
    simp only [ScanMedia, Run.done.injEq] at h
    simp [h]
  | cons entry tail ih =>
    simp only [List.cons_append, ScanMedia] at h ⊢
    cases hstep : MusicWalk musicDir entry db with
    | done db2 =>
      rw [hstep] at h
      exact ih db2 h
    | exited db2 =>
      rw [hstep] at h
      cases h

/-! ## Lemmas on the path functions -/

theorem replaceLoop_space (s : List Char) (n : Nat) (h : s.length < n) :
    replaceLoop [' '] ['%', '2', '0'] n 0 s
      = s.flatMap (fun c => if c = ' ' then ['%', '2', '0'] else [c]) := by
  induction s generalizing n with
  | nil => cases n <;> simp [replaceLoop]
  | cons c rest ih =>
    cases n with
    | zero => simp at h
    | succ m =>
      simp only [List.length_cons, Nat.add_lt_add_iff_right] at h
      by_cases hc : c = ' '
      · subst hc
        simp [replaceLoop, List.isPrefixOf, ih m h]
      · have hc2 : ¬ ' ' = c := fun e => hc e.symm
        simp [replaceLoop, List.isPrefixOf, hc, hc2, ih (m + 1) (Nat.lt_succ_of_lt h)]

theorem stringsReplace_space (s : String) :
    stringsReplace s " " "%20" (-1) = percentEncodeSpaces s := by
  have h1 : ¬ ((" " : String) = "%20" ∨ (-1 : Int) = 0) := by decide
  have h2 : ¬ ((" " : String).data = []) := by decide
  unfold stringsReplace percentEncodeSpaces
  rw [if_neg h1]
  simp only [h2, if_false]
  have h3 : ((-1 : Int) < 0) := by decide
  simp only [h3, if_true]
  exact congrArg String.mk (replaceLoop_space s.data (s.data.length + 1) (Nat.lt_succ_self _))

theorem percentEncodeSpaces_no_space (s : String) : ' ' ∉ (percentEncodeSpaces s).data := by
  unfold percentEncodeSpaces
  simp only [List.mem_flatMap, not_exists, not_and]
  intro c _ hmem
  by_cases hc : c = ' '
  · rw [if_pos hc] at hmem
    revert hmem
    decide
  · rw [if_neg hc] at hmem
    simp only [List.mem_singleton] at hmem
    exact hc hmem.symm

theorem replaceLoop_skip (old new xs rest : List Char) :
    replaceLoop old new 0 xs.length (xs ++ rest) = rest := by
  induction xs with
  | nil => cases rest <;> simp [replaceLoop]
  | cons x tail ih => simpa [replaceLoop] using ih

theorem replaceLoop_head (c : Char) (olds new rest : List Char) :
    replaceLoop (c :: olds) new 1 0 (c :: olds ++ rest) = new ++ rest := by
  have hp : (c :: olds).isPrefixOf (c :: (olds ++ rest)) = true := by
    rw [List.isPrefixOf_iff_prefix]
    exact List.prefix_append (c :: olds) rest
  have hstep : replaceLoop (c :: olds) new 1 0 (c :: (olds ++ rest))
      = if (c :: olds).isPrefixOf (c :: (olds ++ rest)) then
          new ++ replaceLoop (c :: olds) new 0 ((c :: olds).length - 1) (olds ++ rest)
        else c :: replaceLoop (c :: olds) new 1 0 (olds ++ rest) := rfl
  rw [List.cons_append, hstep, hp, if_pos rfl, List.length_cons, Nat.add_sub_cancel,
    replaceLoop_skip]

/-- When the walked path starts with the scan root, the first occurrence that
`strings.Replace` substitutes is that leading root. -/
theorem stringsReplace_root (musicDir rest : String) :
    stringsReplace (String.mk (musicDir.data ++ rest.data)) musicDir static 1
      = String.mk (static.data ++ rest.data) := by
  unfold stringsReplace
  by_cases hsame : musicDir = static
  · simp [hsame]
  · have h0 : ¬ (musicDir = static ∨ (1 : Int) = 0) := by simp [hsame]
    rw [if_neg h0]
    have h1 : ¬ ((1 : Int) < 0) := by decide
    simp only [h1, if_false, Int.toNat_one]
    cases hm : musicDir.data with
    | nil =>
      simp only [List.nil_append, if_true]
      cases rest.data <;> simp [replaceEmpty]
    | cons c olds =>
      simp only [reduceCtorEq, if_false]
      rw [replaceLoop_head]

/-- On a walked path that starts with the scan root, the path `MusicWalk`
computes is the one the specification describes. -/
theorem relativePathNoSpaces_root (musicDir rest : String) :
    relativePathNoSpaces musicDir (String.mk (musicDir.data ++ rest.data))
      = servablePathSpec rest := by
  unfold relativePathNoSpaces servablePathSpec
  rw [stringsReplace_root, stringsReplace_space]

/-- Whatever the root, the path `MusicWalk` stores is its `relativePath` with
each space written `%20` and nothing else changed, and it holds no space. -/
theorem MusicWalk_stores_encoded_path (musicDir : String) (entry : WalkEntry) (db : Catalog)
    (info : FileInfo) (md5sum : String) (metadata : Metadata)
    (hinfo : entry.info = some info) (hdir : info.IsDir = false)
    (hread : ReadFileMeta entry.file = some (md5sum, some metadata)) :
    ∃ song : Song, MusicWalk musicDir entry db = Run.done (addSong song db)
      ∧ song.Path
          = percentEncodeSpaces (filepathClean (stringsReplace entry.path musicDir static 1))
      ∧ ' ' ∉ song.Path.data := by
  refine ⟨{ ID := md5sum, Name := metadata.Title, Artist := metadata.Artist,
            Album := metadata.Album, Genre := metadata.Genre, Year := metadata.Year,
            Format := metadata.Format, FileType := metadata.FileType,
            Path := relativePathNoSpaces musicDir entry.path }, ?_, ?_, ?_⟩
  · simp [MusicWalk, hinfo, hdir, hread]
  · simp only [relativePathNoSpaces]
    exact stringsReplace_space _
  · simp only [relativePathNoSpaces]
    rw [stringsReplace_space]
    exact percentEncodeSpaces_no_space _

/-! ## The claims -/

set_option maxRecDepth 100000

/-- C1: a second `ScanMedia` over the same tree, started from the table the
first one left, ends the same way and leaves exactly the same rows. -/
theorem ScanMedia_idempotent (musicDir : String) (tree : List WalkEntry) (db : Catalog) :
    ScanMedia musicDir tree (ScanMedia musicDir tree db).db = ScanMedia musicDir tree db := by
  rw [ScanMedia_db, ScanMedia_eq musicDir tree (upsertAll (scanUpserts musicDir tree) db),
    ScanMedia_eq musicDir tree db, upsertAll_idempotent]

/-- C2: on a directory entry, and on a non-directory entry whose metadata
reader returns nil, `MusicWalk` performs no upsert: whatever the table is, it
is left as it was found. -/
theorem MusicWalk_skip (musicDir : String) (entry : WalkEntry) (db : Catalog) (info : FileInfo)
    (hinfo : entry.info = some info)
    (h : info.IsDir = true ∨ (info.IsDir = false ∧ tagReadFrom entry.file = none)) :
    (MusicWalk musicDir entry db).db = db := by
  unfold MusicWalk
  rw [hinfo]
  rcases h with hdir | ⟨hdir, hmeta⟩
  · simp [hdir, Run.db]
  · simp only [hdir, Bool.not_false, if_true]
    unfold ReadFileMeta
    rw [hmeta]
    split <;> simp_all [Run.db]

theorem MusicWalk_skip_witness :
    tagReadFrom ⟨false, [255, 216, 255], none, 3, false⟩ = none
      ∧ (MusicWalk "music"
          ⟨"music/cover.jpg", some ⟨false⟩, ⟨false, [255, 216, 255], none, 3, false⟩⟩
          [Song.zero]).db = [Song.zero] :=
  ⟨rfl, MusicWalk_skip "music"
    ⟨"music/cover.jpg", some ⟨false⟩, ⟨false, [255, 216, 255], none, 3, false⟩⟩
    [Song.zero] ⟨false⟩ rfl (Or.inr ⟨rfl, rfl⟩)⟩

/-- C3: evaluation at the failing input.  On the file `abc`, once the tag
reader has moved the read position to the end, `ReadFileMeta` returns the MD5
of the empty byte sequence, not the MD5 of the three bytes; with the position
left at the start the same bytes get another ID. -/
theorem ReadFileMeta_hashes_rest_only :
    ReadFileMeta (sampleFile 3) = some ("d41d8cd98f00b204e9800998ecf8427e", some sampleMetadata)
      ∧ hexEncodeToString (md5Sum (sampleFile 3).content) = "900150983cd24fb0d6963f7d28e17f72"
      ∧ ReadFileMeta (sampleFile 0)
          = some ("900150983cd24fb0d6963f7d28e17f72", some sampleMetadata) := by
  decide

/-- C4, as stated, fails: a file that cannot be read for hashing ends the
whole scan, and the indexable file after it is never upserted. -/
theorem ScanMedia_read_error_not_local :
    ScanMedia "music"
        [⟨"music/a.mp3", some ⟨false⟩, ⟨false, [97, 98, 99], some sampleMetadata, 0, true⟩⟩,
         ⟨"music/b.mp3", some ⟨false⟩, sampleFile 0⟩] []
      = Run.exited []
      ∧ ScanMedia "music" [⟨"music/b.mp3", some ⟨false⟩, sampleFile 0⟩] []
          = Run.done [sampleSong "900150983cd24fb0d6963f7d28e17f72" "/static/b.mp3"] := by
  decide

/-- C4, amended: a file that cannot be read for hashing produces no record
and ends the run at that entry: the table stays as the entries before it
left it, whatever follows in the walk. -/
theorem ScanMedia_read_error_fatal (musicDir : String) (before after : List WalkEntry)
    (entry : WalkEntry) (db db1 : Catalog)
    (hbefore : ScanMedia musicDir before db = Run.done db1)
    (hfile : entry.info = some ⟨false⟩)
    (hfail : entry.file.readFails = true) :
    ScanMedia musicDir (before ++ entry :: after) db = Run.exited db1 := by
  rw [ScanMedia_append musicDir before (entry :: after) db db1 hbefore]
  simp [ScanMedia, MusicWalk, hfile, ReadFileMeta, hfail]

theorem ScanMedia_read_error_fatal_witness :
    ScanMedia "music"
        ([⟨"music/b.mp3", some ⟨false⟩, sampleFile 0⟩]
          ++ ⟨"music/a.mp3", some ⟨false⟩, ⟨false, [97, 98, 99], some sampleMetadata, 0, true⟩⟩
            :: [⟨"music/c.mp3", some ⟨false⟩, sampleFile 1⟩]) []
      = Run.exited [sampleSong "900150983cd24fb0d6963f7d28e17f72" "/static/b.mp3"] :=
  ScanMedia_read_error_fatal "music" [⟨"music/b.mp3", some ⟨false⟩, sampleFile 0⟩]
    [⟨"music/c.mp3", some ⟨false⟩, sampleFile 1⟩]
    ⟨"music/a.mp3", some ⟨false⟩, ⟨false, [97, 98, 99], some sampleMetadata, 0, true⟩⟩
    [] [sampleSong "900150983cd24fb0d6963f7d28e17f72" "/static/b.mp3"] (by decide) rfl rfl

/-- C5: evaluation at the failing input.  Under the default root `.` the walk
names the file `My Song.mp3`, and the stored path is `My%20Song/static/mp3`,
not `/static/My%20Song.mp3`. -/
theorem MusicWalk_default_root_path :
    filepathJoin "." "My Song.mp3" = "My Song.mp3"
      ∧ MusicWalk "." ⟨filepathJoin "." "My Song.mp3", some ⟨false⟩, sampleFile 0⟩ []
          = Run.done [sampleSong "900150983cd24fb0d6963f7d28e17f72" "My%20Song/static/mp3"] := by
  decide

/-- C6: evaluation at the failing input.  Under the default root `.` the walk
names the file `Daft Punk/One More Time.mp3`; the stored path is
`Daft%20Punk/One%20More%20Time/static/mp3`, while the cleaned,
prefix-substituted path with its spaces encoded is
`/static/Daft%20Punk/One%20More%20Time.mp3`: more than the spaces changed. -/
theorem MusicWalk_path_not_prefix_substituted :
    filepathJoin (filepathJoin "." "Daft Punk") "One More Time.mp3"
        = "Daft Punk/One More Time.mp3"
      ∧ MusicWalk "." ⟨"Daft Punk/One More Time.mp3", some ⟨false⟩, sampleFile 0⟩ []
          = Run.done [sampleSong "900150983cd24fb0d6963f7d28e17f72"
              "Daft%20Punk/One%20More%20Time/static/mp3"]
      ∧ servablePathSpec "Daft Punk/One More Time.mp3"
          = "/static/Daft%20Punk/One%20More%20Time.mp3" := by
  decide

/-- C7: evaluation at the failing input.  The table holds a record whose
Artist is `Daft Punk`, and `getSongs("Artist", "Daft Punk")` returns no row;
`getSongs("any", _)` returns every row. -/
theorem getSongs_attribute_returns_nothing :
    (sampleSong "abc123" "/static/a.mp3").Artist = "Daft Punk"
      ∧ getSongs [sampleSong "abc123" "/static/a.mp3"] "Artist" "Daft Punk" = Except.ok []
      ∧ getSongs [sampleSong "abc123" "/static/a.mp3"] "any" "any"
          = Except.ok [sampleSong "abc123" "/static/a.mp3"] := by
  decide

/-- C8, as stated, fails: an attribute name that is no column name is not
rejected, by `getSongs` or by `GetSongByAttribute`, and the name `?` returns
every row. -/
theorem getSongs_unrecognised_not_rejected :
    getSongs [sampleSong "abc123" "/static/a.mp3"] "DROP TABLE songs" "x" = Except.ok []
      ∧ GetSongByAttribute [sampleSong "abc123" "/static/a.mp3"] "DROP TABLE songs" "x"
          = Except.ok [Song.zero]
      ∧ getSongs [sampleSong "abc123" "/static/a.mp3"] "?" "x"
          = Except.ok [sampleSong "abc123" "/static/a.mp3"] := by
  decide

/-- C8, amended: for every attribute name other than `any` and `?`, `getSongs`
returns no row and no error, and `GetSongByAttribute` writes one zero `Song`. -/
theorem getSongs_other_names_empty (db : Catalog) (attr value : String)
    (hany : attr ≠ "any") (hmark : attr ≠ "?") :
    getSongs db attr value = Except.ok []
      ∧ GetSongByAttribute db attr value = Except.ok [Song.zero] := by
  refine ⟨?_, rfl⟩
  simp [getSongs, hany, dbQuery, SqlSelect.numInput, SqlOperand.numInput, SqlOperand.eval, hmark]

theorem getSongs_other_names_empty_witness :
    getSongs [sampleSong "abc123" "/static/a.mp3"] "Genre" "House" = Except.ok []
      ∧ GetSongByAttribute [sampleSong "abc123" "/static/a.mp3"] "Genre" "House"
          = Except.ok [Song.zero] :=
  getSongs_other_names_empty [sampleSong "abc123" "/static/a.mp3"] "Genre" "House"
    (by decide) (by decide)

/-- C9: evaluation at the failing input.  The table holds the record with ID
`abc123`, and `GetSongByID` writes one zero `Song` and not that record. -/
theorem GetSongByID_writes_only_zero :
    GetSongByID [sampleSong "abc123" "/static/a.mp3"] "abc123" = Except.ok [Song.zero]
      ∧ (sampleSong "abc123" "/static/a.mp3").ID = "abc123"
      ∧ sampleSong "abc123" "/static/a.mp3" ≠ Song.zero := by
  decide

/-- C10, as stated, fails: two records with the same ID and different paths
leave different tables in the two orders; the later upsert wins. -/
theorem addSong_same_id_not_commutative :
    addSong (sampleSong "abc123" "/static/b.mp3") (addSong (sampleSong "abc123" "/static/a.mp3") [])
        = [sampleSong "abc123" "/static/b.mp3"]
      ∧ addSong (sampleSong "abc123" "/static/a.mp3")
          (addSong (sampleSong "abc123" "/static/b.mp3") [])
        = [sampleSong "abc123" "/static/a.mp3"]
      ∧ sampleSong "abc123" "/static/a.mp3"
          ∉ addSong (sampleSong "abc123" "/static/b.mp3")
              (addSong (sampleSong "abc123" "/static/a.mp3") []) := by
  decide

/-- C10, amended: for two records with different IDs, or twice the same
record, the two orders of upsert leave the same rows. -/
theorem addSong_comm (db : Catalog) (a b : Song) (h : a.ID ≠ b.ID ∨ a = b) :
    (addSong b (addSong a db)).Perm (addSong a (addSong b db)) := by
  rcases h with h | h
  · have hba : ¬ b.ID = a.ID := fun e => h e.symm
    have hab : decide (a.ID ≠ b.ID) = true := decide_eq_true h
    have hba2 : decide (b.ID ≠ a.ID) = true := decide_eq_true hba
    simp only [addSong, List.filter_append, List.filter_filter, List.filter_cons,
      List.filter_nil, hab, hba2, if_true, List.append_assoc]
    have hf : ∀ row : Song, (decide (row.ID ≠ b.ID) && decide (row.ID ≠ a.ID))
        = (decide (row.ID ≠ a.ID) && decide (row.ID ≠ b.ID)) := fun row => Bool.and_comm _ _
    simp only [hf]
    exact List.Perm.append_left _ (List.Perm.swap _ _ _)
  · subst h
    exact List.Perm.refl _

theorem addSong_comm_witness :
    (addSong (sampleSong "def456" "/static/b.mp3")
        (addSong (sampleSong "abc123" "/static/a.mp3") [Song.zero])).Perm
      (addSong (sampleSong "abc123" "/static/a.mp3")
        (addSong (sampleSong "def456" "/static/b.mp3") [Song.zero])) :=
  addSong_comm [Song.zero] (sampleSong "abc123" "/static/a.mp3")
    (sampleSong "def456" "/static/b.mp3") (Or.inl (by decide))

end Playongo
